import Mathlib

/-!
Verification of the ForecastIQ demand-forecasting core.

The definitions below are a shallow embedding of the forecasting route
module (the SimpleForecast predictor set, the time-series normalizer
prepareSalesData, the reorder advisor, the per-SKU orchestrator and the
batch variant).  JavaScript numbers are modelled as rationals, JavaScript
arrays as lists, and code that can throw returns Option/Except.
-/

/-- JavaScript Math.max of two numbers (no NaN in this model). -/
def jsMax (a b : ℚ) : ℚ := if a ≤ b then b else a

/-- JavaScript Math.round on rationals: round half toward positive infinity. -/
def jsRound (q : ℚ) : ℚ := ((⌊q + 1/2⌋ : ℤ) : ℚ)

/-- The mean function of the simple-statistics library: it throws on an
empty array (modelled as none), otherwise returns sum divided by length. -/
def ssMean (l : List ℚ) : Option ℚ :=
  if l.length = 0 then none else some (l.sum / (l.length : ℚ))

/-- JavaScript Array.prototype.slice called with the negative index -p
(as in data.slice(-periods)): the last p elements, or the whole array when
p = 0 (since -0 is 0 in JavaScript) or when p exceeds the length. -/
def jsSliceLast (data : List ℚ) (p : ℕ) : List ℚ :=
  if p = 0 then data else data.drop (data.length - p)

/-- SimpleForecast.movingAverage: when the series is shorter than the
requested number of periods, return the last value (or 0 when empty);
otherwise the simple-statistics mean of data.slice(-periods). -/
def movingAverage (data : List ℚ) (periods : ℕ) : Option ℚ :=
  if data.length < periods then
    some (if 0 < data.length then data.getD (data.length - 1) 0 else 0)
  else
    ssMean (jsSliceLast data periods)

/-- SimpleForecast.linearTrend: for fewer than two points, repeat the only
value (or 0).  Otherwise an ordinary least-squares fit over (index, value)
pairs as computed by simple-statistics linearRegression, evaluated at the
future indices, clamped at 0 and rounded. -/
def linearTrend (data : List ℚ) (forecastDays : ℕ) : List ℚ :=
  if data.length < 2 then
    List.replicate forecastDays (if 0 < data.length then data.getD 0 0 else 0)
  else
    let n : ℚ := (data.length : ℚ)
    let pts := data.enum
    let sumX : ℚ := (pts.map (fun p => ((p.1 : ℕ) : ℚ))).sum
    let sumY : ℚ := (pts.map (fun p => p.2)).sum
    let sumXX : ℚ := (pts.map (fun p => ((p.1 : ℕ) : ℚ) * ((p.1 : ℕ) : ℚ))).sum
    let sumXY : ℚ := (pts.map (fun p => ((p.1 : ℕ) : ℚ) * p.2)).sum
    let m := (n * sumXY - sumX * sumY) / (n * sumXX - sumX * sumX)
    let b := sumY / n - (m * sumX) / n
    (List.range forecastDays).map (fun i =>
      let dayIndex : ℚ := ((data.length + i : ℕ) : ℚ)
      jsMax 0 (jsRound (m * dayIndex + b)))

/-- SimpleForecast.exponentialSmoothing: smooth the whole series starting
from its first value, then repeat the clamped, rounded final smoothed value
for every horizon day.  Empty series give all zeros, a singleton repeats
its value unrounded. -/
def exponentialSmoothing (data : List ℚ) (alpha : ℚ) (forecastDays : ℕ) : List ℚ :=
  match data with
  | [] => List.replicate forecastDays 0
  | [x] => List.replicate forecastDays x
  | x :: rest => List.replicate forecastDays
      (jsMax 0 (jsRound (rest.foldl (fun s v => alpha * v + (1 - alpha) * s) x)))

/-- SimpleForecast.seasonalNaive: with fewer points than one season, fall
back to a flat movingAverage forecast called with periods = data.length
(none when that inner mean throws); otherwise repeat the last season. -/
def seasonalNaive (data : List ℚ) (seasonLength : ℕ) (forecastDays : ℕ) : Option (List ℚ) :=
  if data.length < seasonLength then
    (movingAverage data data.length).map (fun avgValue =>
      List.replicate forecastDays (jsMax 0 avgValue))
  else
    some ((List.range forecastDays).map (fun i =>
      let seasonIndex := i % seasonLength
      let historicalIndex := data.length - seasonLength + seasonIndex
      jsMax 0 (data.getD historicalIndex 0)))

/-- SimpleForecast.combinedForecast: per day, the simple-statistics mean of
the three per-day values (written as their sum divided by 3), rounded.
It is none exactly when seasonalNaive throws. -/
def combinedForecast (data : List ℚ) (forecastDays : ℕ) : Option (List ℚ) :=
  (seasonalNaive data 7 forecastDays).map (fun seas =>
    let lin := linearTrend data forecastDays
    let expo := exponentialSmoothing data (3/10) forecastDays
    (List.range forecastDays).map (fun i =>
      jsRound ((lin.getD i 0 + expo.getD i 0 + seas.getD i 0) / 3)))

/-- A raw sales row as fetched for one SKU: the day (as a day number, the
code uses canonical yyyy-MM-dd strings) and the units sold that day. -/
structure SalesRecord where
  date : ℕ
  units_sold : ℚ
deriving DecidableEq

/-- One step of building the dailySales object: add q to the entry for
date d of the association list, or append a fresh entry. -/
def bump (m : List (ℕ × ℚ)) (d : ℕ) (q : ℚ) : List (ℕ × ℚ) :=
  match m with
  | [] => [(d, q)]
  | (dk, qk) :: rest => if dk = d then (dk, qk + q) :: rest else (dk, qk) :: bump rest d q

/-- The dailySales object of prepareSalesData: fold the records, summing
units_sold per date. -/
def groupSales (records : List SalesRecord) : List (ℕ × ℚ) :=
  records.foldl (fun m r => bump m r.date r.units_sold) []

/-- Lookup of dailySales[date]. -/
def lookupDate : List (ℕ × ℚ) → ℕ → Option ℚ
  | [], _ => none
  | (dk, q) :: rest, d => if dk = d then some q else lookupDate rest d

/-- Minimum of a list of day numbers (the first element of the sorted key
array); 0 for an empty list, which prepareSalesData never queries. -/
def listMinN (l : List ℕ) : ℕ :=
  match l with
  | [] => 0
  | x :: xs => xs.foldl min x

/-- Maximum of a list of day numbers (the last element of the sorted key
array); 0 for an empty list, which prepareSalesData never queries. -/
def listMaxN (l : List ℕ) : ℕ :=
  match l with
  | [] => 0
  | x :: xs => xs.foldl max x

/-- prepareSalesData: group records by date summing units_sold, then walk
day by day from the smallest to the largest date, emitting the summed value
or 0 where absent.  Empty input gives the empty series. -/
def prepareSalesData (records : List SalesRecord) : List ℚ :=
  let dailySales := groupSales records
  if dailySales.length = 0 then []
  else
    let dates := dailySales.map (fun p => p.1)
    let startDate := listMinN dates
    let endDate := listMaxN dates
    (List.range (endDate + 1 - startDate)).map (fun i =>
      (lookupDate dailySales (startDate + i)).getD 0)

/-- The reorderSuggestion value built inside the generate route.  Day
counts and the suggested quantity are integers (Math.floor / Math.ceil). -/
structure ReorderSuggestion where
  needed : Bool
  currentStock : ℚ
  predictedDemand : ℚ
  suggestedQuantity : Option ℤ
  daysUntilStockout : Option ℤ
  daysOfStock : Option ℤ
  priority : Option String
deriving DecidableEq

/-- The reorder advisory computed by the generate route once the inventory
record is available.  avgDailyDemand is replaced by 1 exactly when it is 0,
mirroring the JavaScript expression (avgDailyDemand or-else 1). -/
def reorderSuggestion (totalPredictedDemand currentStock reorderLevel avgDailyDemand : ℚ) :
    ReorderSuggestion :=
  if currentStock < totalPredictedDemand then
    { needed := true
      currentStock := currentStock
      predictedDemand := totalPredictedDemand
      suggestedQuantity := some ⌈totalPredictedDemand - currentStock + reorderLevel⌉
      daysUntilStockout := some ⌊currentStock / (if avgDailyDemand = 0 then 1 else avgDailyDemand)⌋
      daysOfStock := none
      priority := some (if currentStock ≤ reorderLevel then "high" else "medium") }
  else
    { needed := false
      currentStock := currentStock
      predictedDemand := totalPredictedDemand
      suggestedQuantity := none
      daysUntilStockout := none
      daysOfStock := some ⌊currentStock / (if avgDailyDemand = 0 then 1 else avgDailyDemand)⌋
      priority := none }

/-- An inventory record as returned by getInventoryBySku. -/
structure InventoryRecord where
  quantity : ℚ
  reorder_level : ℚ
deriving DecidableEq

/-- The two rejection outcomes of the generate route that the claims are
about, plus the catch-all 500 (internal) for a thrown computation. -/
inductive GenerateError where
  | badRequest : GenerateError
  | noData : GenerateError
  | internal : GenerateError
deriving DecidableEq

/-- The shaped per-SKU result of the generate route, restricted to the
fields the claims mention. -/
structure GenerateResult where
  sku : String
  method : String
  requestedMethod : String
  forecastDays : ℕ
  forecastDates : List ℕ
  forecastValues : List ℚ
  totalPredictedDemand : ℚ
  avgDailyDemand : ℚ
  reorder : Option ReorderSuggestion
deriving DecidableEq

/-- The per-SKU generate route (POST /generate/:sku), with the external
fetches passed in: salesData from getSalesData, inventory from
getInventoryBySku (none when that call throws), and the request day
(new Date()) as a day number.  The horizon is clamped into 1..90, the
method switch defaults to the combined forecast, and forecast dates start
the day after the request day. -/
def generateForecast (sku : String) (days : ℤ) (method : String)
    (salesData : List SalesRecord) (inventory : Option InventoryRecord) (today : ℕ) :
    Except GenerateError GenerateResult :=
  if sku = "" then .error .badRequest
  else
    let forecastDays : ℕ := (min (max days 1) 90).toNat
    if salesData.length = 0 then .error .noData
    else
      let timeSeries := prepareSalesData salesData
      let pair :=
        if method = "linear" then (some (linearTrend timeSeries forecastDays), "linear")
        else if method = "exponential" then
          (some (exponentialSmoothing timeSeries (3/10) forecastDays), "exponential")
        else if method = "seasonal" then (seasonalNaive timeSeries 7 forecastDays, "seasonal")
        else (combinedForecast timeSeries forecastDays, "combined")
      match pair.1 with
      | none => .error .internal
      | some forecast =>
        let forecastDates := (List.range forecast.length).map (fun i => today + i + 1)
        let totalPredictedDemand := forecast.sum
        let avgDailyDemand := totalPredictedDemand / (forecastDays : ℚ)
        .ok
          { sku := sku
            method := pair.2
            requestedMethod := method
            forecastDays := forecastDays
            forecastDates := forecastDates
            forecastValues := forecast
            totalPredictedDemand := totalPredictedDemand
            avgDailyDemand := avgDailyDemand
            reorder := inventory.map (fun inv =>
              reorderSuggestion totalPredictedDemand inv.quantity inv.reorder_level avgDailyDemand) }

/-- True exactly on an accepted (HTTP 200) outcome of the generate route. -/
def isOkResult : Except GenerateError GenerateResult → Bool
  | .ok _ => true
  | .error _ => false

/-- The clamped horizon of an accepted generate outcome. -/
def resultDaysOf : Except GenerateError GenerateResult → Option ℕ
  | .ok r => some r.forecastDays
  | .error _ => none

/-- The forecast dates of an accepted generate outcome. -/
def resultDatesOf : Except GenerateError GenerateResult → Option (List ℕ)
  | .ok r => some r.forecastDates
  | .error _ => none

/-- The reported method of an accepted generate outcome. -/
def resultMethodOf : Except GenerateError GenerateResult → Option String
  | .ok r => some r.method
  | .error _ => none

/-- The forecast values of an accepted generate outcome. -/
def resultValuesOf : Except GenerateError GenerateResult → Option (List ℚ)
  | .ok r => some r.forecastValues
  | .error _ => none

/-- An inventory item of the batch route. -/
structure InventoryItem where
  sku : String
  name : String
  quantity : ℚ
  reorder_level : ℚ
deriving DecidableEq

/-- One entry of the batch (generate-all) forecasts array. -/
structure BatchForecast where
  sku : String
  name : String
  currentStock : ℚ
  reorderLevel : ℚ
  predictedDemand : ℚ
  reorderNeeded : Bool
  priority : String
deriving DecidableEq

/-- The body of the batch loop for one inventory item: none when the item
lands in the errors array (no sales data, or a thrown computation). -/
def batchItem (item : InventoryItem) (salesData : List SalesRecord) (days : ℕ) :
    Option BatchForecast :=
  if salesData.length = 0 then none
  else
    (combinedForecast (prepareSalesData salesData) days).map (fun forecast =>
      let totalPredictedDemand := forecast.sum
      let reorderNeeded := item.quantity < totalPredictedDemand
      { sku := item.sku
        name := item.name
        currentStock := item.quantity
        reorderLevel := item.reorder_level
        predictedDemand := totalPredictedDemand
        reorderNeeded := reorderNeeded
        priority :=
          if item.quantity ≤ item.reorder_level then "high"
          else if reorderNeeded then "medium" else "low" })

/-- The batch loop before sorting: forecasts in inventory order and the
skus of the error entries. -/
def generateAllRaw : List (InventoryItem × List SalesRecord) → ℕ →
    List BatchForecast × List String
  | [], _ => ([], [])
  | (item, sales) :: rest, days =>
    let tail := generateAllRaw rest days
    match batchItem item sales days with
    | some f => (f :: tail.1, tail.2)
    | none => (tail.1, item.sku :: tail.2)

/-- Numeric rank of a priority string (the priorityOrder object of the
batch sort comparator). -/
def prioVal (p : String) : ℤ :=
  if p = "high" then 3 else if p = "medium" then 2 else if p = "low" then 1 else 0

/-- Stable insertion of one element into a list already sorted by
descending priority: the element goes before the first strictly lower
priority, after everything of greater or equal priority seen so far is
skipped only when strictly greater.  This realizes the ES2019 stable
Array.prototype.sort with the priorityOrder comparator. -/
def insertDesc (x : BatchForecast) : List BatchForecast → List BatchForecast
  | [] => [x]
  | y :: ys => if prioVal y.priority ≤ prioVal x.priority then x :: y :: ys
               else y :: insertDesc x ys

/-- The batch sort: stable, by descending priority. -/
def sortByPriority (l : List BatchForecast) : List BatchForecast :=
  l.foldr insertDesc []

/-- The batch route (POST /generate-all): per-item forecasts (sorted) and
the error list. -/
def generateAll (inv : List (InventoryItem × List SalesRecord)) (days : ℕ) :
    List BatchForecast × List String :=
  let raw := generateAllRaw inv days
  (sortByPriority raw.1, raw.2)

lemma jsMax_nonneg (x : ℚ) : 0 ≤ jsMax 0 x := by
  unfold jsMax
  split
  · assumption
  · exact le_refl 0

lemma jsMax_zero_of_nonneg {x : ℚ} (h : 0 ≤ x) : jsMax 0 x = x := by
  unfold jsMax
  rw [if_pos h]

/-- C6: whenever totalPredictedDemand exceeds currentStock the advisory has
needed = true, suggestedQuantity = ceil(totalPredictedDemand - currentStock
+ reorderThreshold), and priority "high" exactly when currentStock is at or
below the threshold, "medium" otherwise. -/
theorem reorder_needed_spec (total stock lvl avg : ℚ) (h : stock < total) :
    (reorderSuggestion total stock lvl avg).needed = true ∧
    (reorderSuggestion total stock lvl avg).suggestedQuantity = some ⌈total - stock + lvl⌉ ∧
    ((reorderSuggestion total stock lvl avg).priority = some "high" ↔ stock ≤ lvl) ∧
    (¬ stock ≤ lvl → (reorderSuggestion total stock lvl avg).priority = some "medium") := by
  unfold reorderSuggestion
  rw [if_pos h]
  refine ⟨rfl, rfl, ?_, ?_⟩
  · by_cases hp : stock ≤ lvl
    · simp [hp]
    · simp [hp]
  · intro hp
    simp [hp]

/-- Witness for C6 at the documented example: currentStock = 5,
totalPredictedDemand = 20, reorderThreshold = 10. -/
theorem reorder_needed_witness :
    (reorderSuggestion 20 5 10 (2/3)).needed = true ∧
    (reorderSuggestion 20 5 10 (2/3)).suggestedQuantity = some 25 ∧
    (reorderSuggestion 20 5 10 (2/3)).priority = some "high" := by
  have h := reorder_needed_spec 20 5 10 (2/3) (by norm_num)
  refine ⟨h.1, ?_, h.2.2.1.mpr (by norm_num)⟩
  rw [h.2.1]
  norm_num

/-- C1 counterexample: at currentStock = 100, totalPredictedDemand = 20,
horizon 30 (so averageDailyDemand = 20/30) the code divides by the average
itself, not by max(average, 1): it reports 150 days of stock while the
claimed formula floor(100 / max(20/30, 1)) gives 100. -/
theorem reorder_days_counterexample :
    (reorderSuggestion 20 100 10 (20/30)).needed = false ∧
    (reorderSuggestion 20 100 10 (20/30)).daysOfStock = some 150 ∧
    ⌊(100 : ℚ) / max ((20 : ℚ)/30) 1⌋ = 100 ∧ (150 : ℤ) ≠ 100 := by
  have hmax : max ((20 : ℚ)/30) 1 = 1 := max_eq_right (by norm_num)
  unfold reorderSuggestion
  norm_num [hmax]

/-- C1 amended: in both branches the day count divides currentStock by the
average daily demand with 1 substituted only when the average is exactly 0
(the JavaScript or-else), so the documented example yields daysOfStock =
floor(100 / (20/30)) = 150, not 100. -/
theorem reorder_days_spec (total stock lvl avg : ℚ) :
    (¬ stock < total → avg ≠ 0 →
      (reorderSuggestion total stock lvl avg).daysOfStock = some ⌊stock / avg⌋) ∧
    (¬ stock < total → avg = 0 →
      (reorderSuggestion total stock lvl avg).daysOfStock = some ⌊stock⌋) ∧
    (stock < total → avg ≠ 0 →
      (reorderSuggestion total stock lvl avg).daysUntilStockout = some ⌊stock / avg⌋) ∧
    (stock < total → avg = 0 →
      (reorderSuggestion total stock lvl avg).daysUntilStockout = some ⌊stock⌋) := by
  refine ⟨?_, ?_, ?_, ?_⟩ <;> intro h hz <;> unfold reorderSuggestion <;> simp [h, hz]

/-- Witness for the amended C1 at the documented example, where the code
returns 150. -/
theorem reorder_days_witness :
    (reorderSuggestion 20 100 10 (20/30)).daysOfStock = some 150 := by
  have h := (reorder_days_spec 20 100 10 (20/30)).1 (by norm_num) (by norm_num)
  rw [h]
  norm_num

/-- C7 counterexample: for the two-element series [1, 3] with periods = 7
the helper returns the last value 3, while the mean of the last
min(periods, len) = 2 values is 2. -/
theorem movingAverage_counterexample :
    movingAverage [1, 3] 7 = some 3 ∧
    ssMean (jsSliceLast [1, 3] (min 7 ([1, 3] : List ℚ).length)) = some 2 ∧
    some (3 : ℚ) ≠ some (2 : ℚ) := by
  refine ⟨?_, ?_, by norm_num⟩
  · norm_num [movingAverage]
  · norm_num [ssMean, jsSliceLast]

/-- C7 amended: with periods at least 1, the helper returns the mean of the
last periods values when the series has at least periods entries, the last
value of the series when the series is shorter but non-empty, and 0 for the
empty series. -/
theorem movingAverage_spec (data : List ℚ) (periods : ℕ) (hp : 0 < periods) :
    (periods ≤ data.length →
      movingAverage data periods =
        some ((data.drop (data.length - periods)).sum / (periods : ℚ))) ∧
    (data.length < periods → 0 < data.length →
      movingAverage data periods = some (data.getD (data.length - 1) 0)) ∧
    (data = [] → movingAverage data periods = some 0) := by
  refine ⟨?_, ?_, ?_⟩
  · intro hle
    have hp0 : periods ≠ 0 := by omega
    have hlen : ¬ data.length < periods := by omega
    unfold movingAverage jsSliceLast ssMean
    rw [if_neg hlen, if_neg hp0, List.length_drop]
    have h2 : data.length - (data.length - periods) = periods := by omega
    rw [h2, if_neg hp0]
  · intro hlt hpos
    unfold movingAverage
    rw [if_pos hlt, if_pos hpos]
  · intro he
    subst he
    unfold movingAverage
    rw [if_pos (by simpa using hp)]
    simp

/-- Witness for the amended C7: the three cases at concrete inputs. -/
theorem movingAverage_witness :
    movingAverage [1, 2, 3, 4] 2 = some (7/2) ∧
    movingAverage [1, 3] 7 = some 3 ∧
    movingAverage [] 7 = some 0 := by
  refine ⟨?_, ?_, ?_⟩
  · have h := (movingAverage_spec [1, 2, 3, 4] 2 (by norm_num)).1 (by norm_num)
    rw [h]
    norm_num
  · have h := (movingAverage_spec [1, 3] 7 (by norm_num)).2.1 (by norm_num) (by norm_num)
    rw [h]
    norm_num
  · exact (movingAverage_spec [] 7 (by norm_num)).2.2 rfl

lemma getD_zero_if_nonneg (data : List ℚ) (hd : ∀ x ∈ data, 0 ≤ x) :
    0 ≤ (if 0 < data.length then data.getD 0 0 else 0) := by
  cases data with
  | nil => simp
  | cons a tl => simpa using hd a (by simp)

lemma linearTrend_length (data : List ℚ) (h : ℕ) : (linearTrend data h).length = h := by
  unfold linearTrend
  split
  · simp
  · simp

lemma linearTrend_nonneg (data : List ℚ) (h : ℕ) (hd : ∀ x ∈ data, 0 ≤ x) :
    ∀ x ∈ linearTrend data h, 0 ≤ x := by
  intro x hx
  unfold linearTrend at hx
  by_cases hlen : data.length < 2
  · rw [if_pos hlen] at hx
    have hval := List.eq_of_mem_replicate hx
    subst hval
    exact getD_zero_if_nonneg data hd
  · rw [if_neg hlen] at hx
    simp only [List.mem_map] at hx
    obtain ⟨i, -, rfl⟩ := hx
    exact jsMax_nonneg _

lemma exponentialSmoothing_length (data : List ℚ) (alpha : ℚ) (h : ℕ) :
    (exponentialSmoothing data alpha h).length = h := by
  rcases data with - | ⟨a, - | ⟨b, tl⟩⟩ <;> simp [exponentialSmoothing]

lemma exponentialSmoothing_nonneg (data : List ℚ) (alpha : ℚ) (h : ℕ)
    (hd : ∀ x ∈ data, 0 ≤ x) : ∀ x ∈ exponentialSmoothing data alpha h, 0 ≤ x := by
  intro x hx
  rcases data with - | ⟨a, - | ⟨b, tl⟩⟩ <;> simp only [exponentialSmoothing] at hx <;>
    rw [List.eq_of_mem_replicate hx]
  · exact hd a (by simp)
  · exact jsMax_nonneg _

lemma seasonalNaive_some (data : List ℚ) (s h : ℕ) (hne : data ≠ []) :
    ∃ out, seasonalNaive data s h = some out ∧ out.length = h ∧ ∀ x ∈ out, 0 ≤ x := by
  have hlen0 : data.length ≠ 0 := by simpa using hne
  unfold seasonalNaive
  by_cases hlt : data.length < s
  · rw [if_pos hlt]
    unfold movingAverage ssMean jsSliceLast
    rw [if_neg (lt_irrefl data.length), if_neg hlen0]
    have hz : data.length - data.length = 0 := by omega
    rw [hz, List.drop_zero, if_neg hlen0]
    refine ⟨_, rfl, by simp, ?_⟩
    intro x hx
    exact (List.eq_of_mem_replicate hx) ▸ jsMax_nonneg _
  · rw [if_neg hlt]
    refine ⟨_, rfl, by simp, ?_⟩
    intro x hx
    simp only [List.mem_map] at hx
    obtain ⟨i, -, rfl⟩ := hx
    exact jsMax_nonneg _

lemma combinedForecast_some (data : List ℚ) (h : ℕ) (hne : data ≠ []) :
    ∃ out, combinedForecast data h = some out ∧ out.length = h := by
  obtain ⟨seas, hseas, -, -⟩ := seasonalNaive_some data 7 h hne
  unfold combinedForecast
  rw [hseas]
  simp only [Option.map_some']
  exact ⟨_, rfl, by simp⟩

/-- C3 counterexample: on the empty series with horizon 5 the Seasonal
Naive predictor does not return five zeros; its Moving-Average fallback is
invoked with periods = 0, so the simple-statistics mean of the empty slice
throws. -/
theorem seasonal_empty_counterexample :
    seasonalNaive [] 7 5 = none ∧
    (none : Option (List ℚ)) ≠ some [0, 0, 0, 0, 0] := by
  constructor
  · simp [seasonalNaive, movingAverage, ssMean, jsSliceLast]
  · simp

/-- C3 amended: on series of non-negative values, Linear Trend and
Exponential Smoothing always return exactly horizon non-negative values
(and return five zeros on the empty series with horizon 5), and Seasonal
Naive does so on every non-empty series; on the empty series Seasonal
Naive throws instead of returning the five-zero fallback. -/
theorem predictors_total_spec (data : List ℚ) (h : ℕ) (hd : ∀ x ∈ data, 0 ≤ x) :
    ((linearTrend data h).length = h ∧ ∀ x ∈ linearTrend data h, 0 ≤ x) ∧
    ((exponentialSmoothing data (3/10) h).length = h ∧
      ∀ x ∈ exponentialSmoothing data (3/10) h, 0 ≤ x) ∧
    (data ≠ [] → ∃ out, seasonalNaive data 7 h = some out ∧ out.length = h ∧
      ∀ x ∈ out, 0 ≤ x) ∧
    linearTrend [] 5 = [0, 0, 0, 0, 0] ∧
    exponentialSmoothing [] (3/10) 5 = [0, 0, 0, 0, 0] ∧
    seasonalNaive [] 7 5 = none := by
  refine ⟨⟨linearTrend_length data h, linearTrend_nonneg data h hd⟩,
    ⟨exponentialSmoothing_length data (3/10) h, exponentialSmoothing_nonneg data (3/10) h hd⟩,
    (fun hne => seasonalNaive_some data 7 h hne), ?_, ?_, ?_⟩
  · norm_num [linearTrend, List.replicate]
  · norm_num [exponentialSmoothing, List.replicate]
  · simp [seasonalNaive, movingAverage, ssMean, jsSliceLast]

/-- Witness for the amended C3 at the series [2, 3] with horizon 4. -/
theorem predictors_total_witness :
    (linearTrend [2, 3] 4).length = 4 ∧ (exponentialSmoothing [2, 3] (3/10) 4).length = 4 := by
  have h := predictors_total_spec [2, 3] 4 (by norm_num)
  exact ⟨h.1.1, h.2.1.1⟩

lemma getD_map_range (g : ℕ → ℚ) (h i : ℕ) (hi : i < h) :
    ((List.range h).map g).getD i 0 = g i := by
  simp [List.getD_eq_getElem?_getD, List.getElem?_map, List.getElem?_range, hi]

/-- C4: whenever the combined forecast is produced, its value at each day
index i is the rounded arithmetic mean of the Linear Trend, Exponential
Smoothing and Seasonal Naive values at that index. -/
theorem combined_mean_spec (data : List ℚ) (h i : ℕ) (out seas : List ℚ)
    (hseas : seasonalNaive data 7 h = some seas)
    (hcomb : combinedForecast data h = some out) (hi : i < h) :
    out.getD i 0 =
      jsRound (((linearTrend data h).getD i 0 + (exponentialSmoothing data (3/10) h).getD i 0 +
        seas.getD i 0) / 3) := by
  unfold combinedForecast at hcomb
  rw [hseas] at hcomb
  simp only [Option.map_some'] at hcomb
  injection hcomb with hout
  rw [← hout]
  exact getD_map_range _ h i hi

/-- Witness for C4 on the singleton series [5] with horizon 1, where every
predictor returns [5] and the combined value is round(15/3) = 5. -/
theorem combined_mean_witness :
    ([5] : List ℚ).getD 0 0 =
      jsRound (((linearTrend [5] 1).getD 0 0 + (exponentialSmoothing [5] (3/10) 1).getD 0 0 +
        ([5] : List ℚ).getD 0 0) / 3) := by
  refine combined_mean_spec [5] 1 0 [5] [5] ?_ ?_ (by norm_num)
  · norm_num [seasonalNaive, movingAverage, ssMean, jsSliceLast, jsMax, List.replicate]
  · norm_num [combinedForecast, seasonalNaive, movingAverage, ssMean, jsSliceLast, jsMax,
      linearTrend, exponentialSmoothing, jsRound, List.replicate, List.range_succ]

lemma lookupDate_bump (m : List (ℕ × ℚ)) (d0 : ℕ) (q : ℚ) (d : ℕ) :
    (lookupDate (bump m d0 q) d).getD 0 =
      (lookupDate m d).getD 0 + (if d0 = d then q else 0) := by
  induction m with
  | nil => by_cases hd : d0 = d <;> simp [bump, lookupDate, hd]
  | cons p rest ih =>
    obtain ⟨dk, qk⟩ := p
    by_cases h1 : dk = d0
    · subst h1
      by_cases h2 : dk = d
      · subst h2
        simp [bump, lookupDate]
      · simp [bump, lookupDate, h2]
    · by_cases h2 : dk = d
      · subst h2
        have hd0 : d0 ≠ dk := fun hh => h1 hh.symm
        have hd0s : ¬ (d0 = dk) := hd0
        simp [bump, lookupDate, h1, hd0s]
      · simp [bump, lookupDate, h1, h2, ih]

lemma lookupDate_groupSales_aux (records : List SalesRecord) :
    ∀ (m : List (ℕ × ℚ)) (d : ℕ),
    (lookupDate (records.foldl (fun acc r => bump acc r.date r.units_sold) m) d).getD 0 =
      (lookupDate m d).getD 0 +
        ((records.filter (fun r => r.date = d)).map (fun r => r.units_sold)).sum := by
  induction records with
  | nil => intro m d; simp
  | cons r rs ih =>
    intro m d
    rw [List.foldl_cons, ih, lookupDate_bump]
    by_cases hr : r.date = d
    · simp [List.filter_cons, hr]
      ring
    · simp [List.filter_cons, hr]

lemma lookupDate_groupSales (records : List SalesRecord) (d : ℕ) :
    (lookupDate (groupSales records) d).getD 0 =
      ((records.filter (fun r => r.date = d)).map (fun r => r.units_sold)).sum := by
  have h := lookupDate_groupSales_aux records [] d
  simpa [groupSales, lookupDate] using h

lemma mem_keys_bump (m : List (ℕ × ℚ)) (d0 : ℕ) (q : ℚ) (d : ℕ) :
    d ∈ (bump m d0 q).map Prod.fst ↔ d ∈ m.map Prod.fst ∨ d = d0 := by
  induction m with
  | nil => simp [bump]
  | cons p rest ih =>
    obtain ⟨dk, qk⟩ := p
    by_cases h1 : dk = d0
    · subst h1
      simp [bump]
      tauto
    · simp [bump, h1, ih]
      tauto

lemma mem_keys_groupSales_aux (records : List SalesRecord) :
    ∀ (m : List (ℕ × ℚ)) (d : ℕ),
    (d ∈ (records.foldl (fun acc r => bump acc r.date r.units_sold) m).map Prod.fst ↔
      d ∈ m.map Prod.fst ∨ ∃ r ∈ records, r.date = d) := by
  induction records with
  | nil => intro m d; simp
  | cons r rs ih =>
    intro m d
    rw [List.foldl_cons, ih, mem_keys_bump]
    simp only [List.mem_cons]
    constructor
    · rintro ((h | h) | h)
      · exact Or.inl h
      · exact Or.inr ⟨r, Or.inl rfl, h.symm⟩
      · obtain ⟨r2, hr2, hd2⟩ := h
        exact Or.inr ⟨r2, Or.inr hr2, hd2⟩
    · rintro (h | ⟨r2, hr2 | hr2, hd2⟩)
      · exact Or.inl (Or.inl h)
      · subst hr2
        exact Or.inl (Or.inr hd2.symm)
      · exact Or.inr ⟨r2, hr2, hd2⟩

lemma mem_keys_groupSales (records : List SalesRecord) (d : ℕ) :
    d ∈ (groupSales records).map Prod.fst ↔ ∃ r ∈ records, r.date = d := by
  have h := mem_keys_groupSales_aux records [] d
  simpa [groupSales] using h

lemma groupSales_keys_ne_nil (records : List SalesRecord) (hne : records ≠ []) :
    (groupSales records).map Prod.fst ≠ [] := by
  rcases records with - | ⟨r, rs⟩
  · exact absurd rfl hne
  · have hm : r.date ∈ (groupSales (r :: rs)).map Prod.fst :=
      (mem_keys_groupSales _ _).mpr ⟨r, by simp, rfl⟩
    exact List.ne_nil_of_mem hm

lemma foldl_min_le_init (xs : List ℕ) : ∀ a, xs.foldl min a ≤ a := by
  induction xs with
  | nil => intro a; exact le_refl a
  | cons x xs ih => intro a; exact le_trans (ih (min a x)) (min_le_left a x)

lemma foldl_min_le_mem (xs : List ℕ) : ∀ a x, x ∈ xs → xs.foldl min a ≤ x := by
  induction xs with
  | nil => intro a x hx; simp at hx
  | cons y xs ih =>
    intro a x hx
    rcases List.mem_cons.mp hx with h | h
    · subst h
      exact le_trans (foldl_min_le_init xs (min a x)) (min_le_right a x)
    · exact ih (min a y) x h

lemma foldl_min_mem (xs : List ℕ) : ∀ a, xs.foldl min a = a ∨ xs.foldl min a ∈ xs := by
  induction xs with
  | nil => intro a; exact Or.inl rfl
  | cons y xs ih =>
    intro a
    rcases ih (min a y) with h | h
    · rcases min_choice a y with hm | hm
      · exact Or.inl (by rw [List.foldl_cons, h, hm])
      · refine Or.inr ?_
        rw [List.foldl_cons, h, hm]
        exact List.mem_cons_self y xs
    · exact Or.inr (List.mem_cons_of_mem y (by rw [List.foldl_cons]; exact h))

lemma foldl_max_init_le (xs : List ℕ) : ∀ a, a ≤ xs.foldl max a := by
  induction xs with
  | nil => intro a; exact le_refl a
  | cons x xs ih => intro a; exact le_trans (le_max_left a x) (ih (max a x))

lemma foldl_max_mem_le (xs : List ℕ) : ∀ a x, x ∈ xs → x ≤ xs.foldl max a := by
  induction xs with
  | nil => intro a x hx; simp at hx
  | cons y xs ih =>
    intro a x hx
    rcases List.mem_cons.mp hx with h | h
    · subst h
      exact le_trans (le_max_right a x) (foldl_max_init_le xs (max a x))
    · exact ih (max a y) x h

lemma foldl_max_mem (xs : List ℕ) : ∀ a, xs.foldl max a = a ∨ xs.foldl max a ∈ xs := by
  induction xs with
  | nil => intro a; exact Or.inl rfl
  | cons y xs ih =>
    intro a
    rcases ih (max a y) with h | h
    · rcases max_choice a y with hm | hm
      · exact Or.inl (by rw [List.foldl_cons, h, hm])
      · refine Or.inr ?_
        rw [List.foldl_cons, h, hm]
        exact List.mem_cons_self y xs
    · exact Or.inr (List.mem_cons_of_mem y (by rw [List.foldl_cons]; exact h))

lemma listMinN_mem (l : List ℕ) (h : l ≠ []) : listMinN l ∈ l := by
  rcases l with - | ⟨x, xs⟩
  · exact absurd rfl h
  · rcases foldl_min_mem xs x with h1 | h1
    · rw [listMinN, h1]
      exact List.mem_cons_self x xs
    · exact List.mem_cons_of_mem x (by rw [listMinN]; exact h1)

lemma listMinN_le (l : List ℕ) (x : ℕ) (hx : x ∈ l) : listMinN l ≤ x := by
  rcases l with - | ⟨y, ys⟩
  · simp at hx
  · rcases List.mem_cons.mp hx with h | h
    · subst h
      rw [listMinN]
      exact foldl_min_le_init ys x
    · rw [listMinN]
      exact foldl_min_le_mem ys y x h

lemma listMaxN_mem (l : List ℕ) (h : l ≠ []) : listMaxN l ∈ l := by
  rcases l with - | ⟨x, xs⟩
  · exact absurd rfl h
  · rcases foldl_max_mem xs x with h1 | h1
    · rw [listMaxN, h1]
      exact List.mem_cons_self x xs
    · exact List.mem_cons_of_mem x (by rw [listMaxN]; exact h1)

lemma le_listMaxN (l : List ℕ) (x : ℕ) (hx : x ∈ l) : x ≤ listMaxN l := by
  rcases l with - | ⟨y, ys⟩
  · simp at hx
  · rcases List.mem_cons.mp hx with h | h
    · subst h
      rw [listMaxN]
      exact foldl_max_init_le ys x
    · rw [listMaxN]
      exact foldl_max_mem_le ys y x h

lemma prepareSalesData_closed_form (records : List SalesRecord) (hne : records ≠ []) :
    prepareSalesData records =
      (List.range (listMaxN ((groupSales records).map Prod.fst) + 1 -
          listMinN ((groupSales records).map Prod.fst))).map
        (fun i => (lookupDate (groupSales records)
          (listMinN ((groupSales records).map Prod.fst) + i)).getD 0) := by
  have hkeys : (groupSales records).map Prod.fst ≠ [] := groupSales_keys_ne_nil records hne
  have hg : (groupSales records).length ≠ 0 := by
    intro h0
    exact hkeys (by rw [List.length_eq_zero.mp h0]; rfl)
  simp only [prepareSalesData]
  rw [if_neg hg]

/-- C5: for a non-empty record set whose dates span lo..hi, the normalizer
returns a series of length hi - lo + 1 whose i-th entry is the sum of the
units_sold of the records dated lo + i (0 for dates with no record). -/
theorem normalizer_spec (records : List SalesRecord) (lo hi : ℕ)
    (hne : records ≠ [])
    (hlo1 : ∀ r ∈ records, lo ≤ r.date) (hlo2 : ∃ r ∈ records, r.date = lo)
    (hhi1 : ∀ r ∈ records, r.date ≤ hi) (hhi2 : ∃ r ∈ records, r.date = hi) :
    (prepareSalesData records).length = hi - lo + 1 ∧
    ∀ i, i ≤ hi - lo →
      (prepareSalesData records).getD i 0 =
        ((records.filter (fun r => r.date = lo + i)).map (fun r => r.units_sold)).sum := by
  have hkeys : (groupSales records).map Prod.fst ≠ [] := groupSales_keys_ne_nil records hne
  have hmin : listMinN ((groupSales records).map Prod.fst) = lo := by
    apply le_antisymm
    · obtain ⟨r, hr, hrd⟩ := hlo2
      exact listMinN_le _ lo ((mem_keys_groupSales records lo).mpr ⟨r, hr, hrd⟩)
    · obtain ⟨r, hr, hrd⟩ := (mem_keys_groupSales records _).mp (listMinN_mem _ hkeys)
      exact hrd ▸ hlo1 r hr
  have hmax : listMaxN ((groupSales records).map Prod.fst) = hi := by
    apply le_antisymm
    · obtain ⟨r, hr, hrd⟩ := (mem_keys_groupSales records _).mp (listMaxN_mem _ hkeys)
      exact hrd ▸ hhi1 r hr
    · obtain ⟨r, hr, hrd⟩ := hhi2
      exact le_listMaxN _ hi ((mem_keys_groupSales records hi).mpr ⟨r, hr, hrd⟩)
  have hlohi : lo ≤ hi := by
    obtain ⟨r, hr, hrd⟩ := hlo2
    exact hrd ▸ hhi1 r hr
  rw [prepareSalesData_closed_form records hne, hmin, hmax]
  constructor
  · rw [List.length_map, List.length_range]
    omega
  · intro i hile
    have hilt : i < hi + 1 - lo := by omega
    rw [getD_map_range _ _ i hilt]
    exact lookupDate_groupSales records (lo + i)

/-- Witness for C5: three records on days 3, 5 and 3 produce the series
[3, 0, 4] over the span 3..5. -/
theorem normalizer_witness :
    (prepareSalesData [⟨3, 2⟩, ⟨5, 4⟩, ⟨3, 1⟩]).length = 3 ∧
    (prepareSalesData [⟨3, 2⟩, ⟨5, 4⟩, ⟨3, 1⟩]).getD 1 0 = 0 := by
  have h := normalizer_spec [⟨3, 2⟩, ⟨5, 4⟩, ⟨3, 1⟩] 3 5 (by simp)
    (by intro r hr; fin_cases hr <;> norm_num)
    (by exact ⟨⟨3, 2⟩, by norm_num, rfl⟩)
    (by intro r hr; fin_cases hr <;> norm_num)
    (by exact ⟨⟨5, 4⟩, by norm_num, rfl⟩)
  refine ⟨by rw [h.1], ?_⟩
  rw [h.2 1 (by norm_num)]
  norm_num

lemma listMinN_le_listMaxN (l : List ℕ) (h : l ≠ []) : listMinN l ≤ listMaxN l :=
  listMinN_le l (listMaxN l) (listMaxN_mem l h)

lemma prepareSalesData_ne_nil (records : List SalesRecord) (hne : records ≠ []) :
    prepareSalesData records ≠ [] := by
  have hkeys : (groupSales records).map Prod.fst ≠ [] := groupSales_keys_ne_nil records hne
  have hle := listMinN_le_listMaxN _ hkeys
  rw [prepareSalesData_closed_form records hne]
  intro hcontra
  rw [List.map_eq_nil_iff, List.range_eq_nil] at hcontra
  omega

lemma generateForecast_ok_core (sku : String) (days : ℤ) (method : String)
    (salesData : List SalesRecord) (inventory : Option InventoryRecord) (today : ℕ)
    (h1 : sku ≠ "") (h2 : salesData ≠ []) :
    isOkResult (generateForecast sku days method salesData inventory today) = true ∧
    resultDaysOf (generateForecast sku days method salesData inventory today) =
      some (min (max days 1) 90).toNat ∧
    resultDatesOf (generateForecast sku days method salesData inventory today) =
      some ((List.range (min (max days 1) 90).toNat).map (fun i => today + i + 1)) := by
  have hlen : ¬ (salesData.length = 0) := by simpa using h2
  have hts : prepareSalesData salesData ≠ [] := prepareSalesData_ne_nil salesData h2
  by_cases hm1 : method = "linear"
  · subst hm1
    unfold generateForecast
    simp [h1, hlen, isOkResult, resultDaysOf, resultDatesOf, linearTrend_length]
  by_cases hm2 : method = "exponential"
  · subst hm2
    unfold generateForecast
    simp [h1, hlen, isOkResult, resultDaysOf, resultDatesOf, exponentialSmoothing_length]
  by_cases hm3 : method = "seasonal"
  · subst hm3
    obtain ⟨out, hout, houtlen, -⟩ :=
      seasonalNaive_some (prepareSalesData salesData) 7 ((min (max days 1) 90).toNat) hts
    unfold generateForecast
    simp [h1, hlen, hout, houtlen, isOkResult, resultDaysOf, resultDatesOf]
  · obtain ⟨out, hout, houtlen⟩ :=
      combinedForecast_some (prepareSalesData salesData) ((min (max days 1) 90).toNat) hts
    unfold generateForecast
    simp [h1, hlen, hm1, hm2, hm3, hout, houtlen, isOkResult, resultDaysOf, resultDatesOf]

lemma generateForecast_default_method (sku : String) (days : ℤ) (method : String)
    (salesData : List SalesRecord) (inventory : Option InventoryRecord) (today : ℕ)
    (h1 : sku ≠ "") (h2 : salesData ≠ [])
    (hm1 : method ≠ "linear") (hm2 : method ≠ "exponential") (hm3 : method ≠ "seasonal") :
    resultMethodOf (generateForecast sku days method salesData inventory today) =
      some "combined" ∧
    resultValuesOf (generateForecast sku days method salesData inventory today) =
      combinedForecast (prepareSalesData salesData) ((min (max days 1) 90).toNat) := by
  have hlen : ¬ (salesData.length = 0) := by simpa using h2
  have hts : prepareSalesData salesData ≠ [] := prepareSalesData_ne_nil salesData h2
  obtain ⟨out, hout, -⟩ :=
    combinedForecast_some (prepareSalesData salesData) ((min (max days 1) 90).toNat) hts
  unfold generateForecast
  simp [h1, hlen, hm1, hm2, hm3, hout, resultMethodOf, resultValuesOf]

/-- C2 counterexample: a request with horizonDays = 100 (outside 1..90) and
an unrecognized method string is not rejected: the route clamps the horizon
to 90 and answers successfully. -/
theorem validation_counterexample :
    isOkResult (generateForecast "SKU1" 100 "mystery" [⟨0, 5⟩] none 0) = true ∧
    resultDaysOf (generateForecast "SKU1" 100 "mystery" [⟨0, 5⟩] none 0) = some 90 := by
  have h := generateForecast_ok_core "SKU1" 100 "mystery" [⟨0, 5⟩] none 0 (by simp) (by simp)
  refine ⟨h.1, ?_⟩
  rw [h.2.1]
  norm_num
  decide

/-- C2 amended: the route rejects before computation only an empty sku (and
a SKU with no sales data); an out-of-range horizonDays is clamped into
1..90 rather than rejected, and no method string is rejected. -/
theorem validation_spec (sku : String) (days : ℤ) (method : String)
    (salesData : List SalesRecord) (inventory : Option InventoryRecord) (today : ℕ) :
    (sku = "" → generateForecast sku days method salesData inventory today =
      .error .badRequest) ∧
    (sku ≠ "" → salesData ≠ [] →
      isOkResult (generateForecast sku days method salesData inventory today) = true ∧
      resultDaysOf (generateForecast sku days method salesData inventory today) =
        some (min (max days 1) 90).toNat) := by
  constructor
  · intro h
    unfold generateForecast
    rw [if_pos h]
  · intro h1 h2
    exact ⟨(generateForecast_ok_core sku days method salesData inventory today h1 h2).1,
      (generateForecast_ok_core sku days method salesData inventory today h1 h2).2.1⟩

/-- Witness for the amended C2: the empty sku is rejected, while an
out-of-range horizon with an unknown method is accepted. -/
theorem validation_witness :
    generateForecast "" 10 "linear" [⟨0, 1⟩] none 0 = .error .badRequest ∧
    isOkResult (generateForecast "B" 200 "weird" [⟨0, 2⟩] none 7) = true := by
  constructor
  · exact (validation_spec "" 10 "linear" [⟨0, 1⟩] none 0).1 rfl
  · exact ((validation_spec "B" 200 "weird" [⟨0, 2⟩] none 7).2 (by simp) (by simp)).1

/-- C8 counterexample: for sales observed on days 8 and 10 but a request
made on day 100 with horizon 2, the forecast dates are [101, 102] (the days
after the request date), not [11, 12] (the days after the last observed
date). -/
theorem forecast_dates_counterexample :
    resultDatesOf (generateForecast "A" 2 "linear" [⟨8, 2⟩, ⟨10, 1⟩] none 100) =
      some [101, 102] ∧
    some [101, 102] ≠ some [11, 12] := by
  have h :=
    (generateForecast_ok_core "A" 2 "linear" [⟨8, 2⟩, ⟨10, 1⟩] none 100 (by simp) (by simp)).2.2
  refine ⟨?_, by simp⟩
  rw [h]
  norm_num
  decide

/-- C8 amended: for every accepted request the forecast dates are the
clamped-horizon many consecutive days starting the day after the request
date (today), independent of the last observed date of the series. -/
theorem forecast_dates_spec (sku : String) (days : ℤ) (method : String)
    (salesData : List SalesRecord) (inventory : Option InventoryRecord) (today : ℕ)
    (h1 : sku ≠ "") (h2 : salesData ≠ []) :
    resultDatesOf (generateForecast sku days method salesData inventory today) =
      some ((List.range (min (max days 1) 90).toNat).map (fun i => today + i + 1)) :=
  (generateForecast_ok_core sku days method salesData inventory today h1 h2).2.2

/-- Witness for the amended C8 at a request on day 50 with horizon 3. -/
theorem forecast_dates_witness :
    resultDatesOf (generateForecast "C" 3 "exponential" [⟨0, 1⟩] none 50) =
      some [51, 52, 53] := by
  rw [forecast_dates_spec "C" 3 "exponential" [⟨0, 1⟩] none 50 (by simp) (by simp)]
  norm_num
  decide

/-- C10: a method string other than linear, exponential and seasonal is not
rejected: the route computes the combined forecast and reports method =
"combined". -/
theorem default_method_spec (sku : String) (days : ℤ) (method : String)
    (salesData : List SalesRecord) (inventory : Option InventoryRecord) (today : ℕ)
    (h1 : sku ≠ "") (h2 : salesData ≠ [])
    (hm1 : method ≠ "linear") (hm2 : method ≠ "exponential") (hm3 : method ≠ "seasonal") :
    resultMethodOf (generateForecast sku days method salesData inventory today) =
      some "combined" ∧
    resultValuesOf (generateForecast sku days method salesData inventory today) =
      combinedForecast (prepareSalesData salesData) ((min (max days 1) 90).toNat) :=
  generateForecast_default_method sku days method salesData inventory today h1 h2 hm1 hm2 hm3

/-- Witness for C10 with the unrecognized method string "bogus". -/
theorem default_method_witness :
    resultMethodOf (generateForecast "D" 1 "bogus" [⟨0, 5⟩] none 0) = some "combined" :=
  (default_method_spec "D" 1 "bogus" [⟨0, 5⟩] none 0 (by simp) (by simp)
    (by simp) (by simp) (by simp)).1

lemma prioVal_high : prioVal "high" = 3 := by simp [prioVal]

lemma prioVal_medium : prioVal "medium" = 2 := by simp [prioVal]

lemma prioVal_low : prioVal "low" = 1 := by simp [prioVal]

lemma mem_filter_prio (l : List BatchForecast) (p : String) (y : BatchForecast)
    (hy : y ∈ l.filter (fun f => f.priority = p)) : y.priority = p := by
  have h := (List.mem_filter.mp hy).2
  simpa using h

lemma insertDesc_cons (x y : BatchForecast) (ys : List BatchForecast) :
    insertDesc x (y :: ys) =
      if prioVal y.priority ≤ prioVal x.priority then x :: y :: ys
      else y :: insertDesc x ys := rfl

lemma insertDesc_all_le (x : BatchForecast) (l : List BatchForecast)
    (h : ∀ y ∈ l, prioVal y.priority ≤ prioVal x.priority) : insertDesc x l = x :: l := by
  cases l with
  | nil => rfl
  | cons y ys =>
    rw [insertDesc_cons, if_pos (h y (by simp))]

lemma insertDesc_append_gt (x : BatchForecast) (l1 l2 : List BatchForecast)
    (h : ∀ y ∈ l1, prioVal x.priority < prioVal y.priority) :
    insertDesc x (l1 ++ l2) = l1 ++ insertDesc x l2 := by
  induction l1 with
  | nil => simp
  | cons y ys ih =>
    have hy := h y (by simp)
    rw [List.cons_append, insertDesc_cons, if_neg (by omega),
      ih (fun z hz => h z (by simp [hz])), List.cons_append]

lemma batchItem_priority (item : InventoryItem) (sales : List SalesRecord) (days : ℕ)
    (bf : BatchForecast) (h : batchItem item sales days = some bf) :
    bf.priority = (if item.quantity ≤ item.reorder_level then "high"
      else if item.quantity < bf.predictedDemand then "medium" else "low") := by
  unfold batchItem at h
  by_cases hl : sales.length = 0
  · rw [if_pos hl] at h
    simp at h
  · rw [if_neg hl] at h
    cases hc : combinedForecast (prepareSalesData sales) days with
    | none => rw [hc] at h; simp at h
    | some fc =>
      rw [hc] at h
      simp only [Option.map_some'] at h
      injection h with h
      subst h
      rfl

lemma generateAllRaw_priorities (inv : List (InventoryItem × List SalesRecord)) (days : ℕ) :
    ∀ bf ∈ (generateAllRaw inv days).1,
      bf.priority = "high" ∨ bf.priority = "medium" ∨ bf.priority = "low" := by
  induction inv with
  | nil => intro bf h; simp [generateAllRaw] at h
  | cons p rest ih =>
    intro bf h
    obtain ⟨item, sales⟩ := p
    unfold generateAllRaw at h
    cases hb : batchItem item sales days with
    | none =>
      rw [hb] at h
      exact ih bf h
    | some f =>
      rw [hb] at h
      rcases List.mem_cons.mp h with h1 | h1
      · subst h1
        rw [batchItem_priority item sales days bf hb]
        by_cases h2 : item.quantity ≤ item.reorder_level
        · simp [h2]
        · by_cases h3 : item.quantity < bf.predictedDemand
          · simp [h2, h3]
          · simp [h2, h3]
      · exact ih bf h1

lemma sortByPriority_filter (l : List BatchForecast)
    (hall : ∀ bf ∈ l, bf.priority = "high" ∨ bf.priority = "medium" ∨ bf.priority = "low") :
    sortByPriority l =
      l.filter (fun f => f.priority = "high") ++
      l.filter (fun f => f.priority = "medium") ++
      l.filter (fun f => f.priority = "low") := by
  induction l with
  | nil => rfl
  | cons a l ih =>
    have ihl := ih (fun bf h => hall bf (List.mem_cons_of_mem a h))
    have hpv : ∀ y ∈ l.filter (fun f => f.priority = "high") ++
        (l.filter (fun f => f.priority = "medium") ++
         l.filter (fun f => f.priority = "low")), prioVal y.priority ≤ 3 := by
      intro y hy
      rcases List.mem_append.mp hy with h | h
      · rw [mem_filter_prio l "high" y h, prioVal_high]
      · rcases List.mem_append.mp h with h | h
        · rw [mem_filter_prio l "medium" y h, prioVal_medium]
          omega
        · rw [mem_filter_prio l "low" y h, prioVal_low]
          omega
    have hstep : sortByPriority (a :: l) = insertDesc a (sortByPriority l) := rfl
    rcases hall a (by simp) with ha | ha | ha
    · rw [hstep, ihl, List.append_assoc]
      rw [insertDesc_all_le a _ (by rw [ha, prioVal_high]; exact hpv)]
      simp [List.filter_cons, ha]
    · rw [hstep, ihl, List.append_assoc]
      rw [insertDesc_append_gt a _ _ (by
        intro y hy
        rw [ha, prioVal_medium, mem_filter_prio l "high" y hy, prioVal_high]
        omega)]
      rw [insertDesc_all_le a _ (by
        intro y hy
        rw [ha, prioVal_medium]
        rcases List.mem_append.mp hy with h | h
        · rw [mem_filter_prio l "medium" y h, prioVal_medium]
        · rw [mem_filter_prio l "low" y h, prioVal_low]
          omega)]
      simp [List.filter_cons, ha]
    · rw [hstep, ihl]
      rw [insertDesc_append_gt a _ _ (by
        intro y hy
        rw [ha, prioVal_low]
        rcases List.mem_append.mp hy with h | h
        · rw [mem_filter_prio l "high" y h, prioVal_high]
          omega
        · rw [mem_filter_prio l "medium" y h, prioVal_medium]
          omega)]
      rw [insertDesc_all_le a _ (by
        intro y hy
        rw [ha, prioVal_low, mem_filter_prio l "low" y hy, prioVal_low])]
      simp [List.filter_cons, ha]

/-- C9: in the batch route every successful item's priority is "high" when
currentStock is at or below the reorder threshold, else "medium" when
predicted demand exceeds current stock, else "low"; and the returned list
is the stable high-medium-low rearrangement of the per-item results, so all
"high" items precede all "medium" items precede all "low" items with ties
in original inventory order. -/
theorem batch_priority_sort_spec (inv : List (InventoryItem × List SalesRecord)) (days : ℕ) :
    (∀ item sales bf, batchItem item sales days = some bf →
      bf.priority = (if item.quantity ≤ item.reorder_level then "high"
        else if item.quantity < bf.predictedDemand then "medium" else "low")) ∧
    (generateAll inv days).1 =
      (generateAllRaw inv days).1.filter (fun f => f.priority = "high") ++
      (generateAllRaw inv days).1.filter (fun f => f.priority = "medium") ++
      (generateAllRaw inv days).1.filter (fun f => f.priority = "low") := by
  constructor
  · intro item sales bf h
    exact batchItem_priority item sales days bf h
  · have h := sortByPriority_filter (generateAllRaw inv days).1 (generateAllRaw_priorities inv days)
    simpa [generateAll] using h

/-- Witness for C9: a single inventory item with stock 10 and threshold 20
whose predicted demand is 25 is classified "high". -/
theorem batch_priority_sort_witness :
    ({ sku := "A", name := "N", currentStock := 10, reorderLevel := 20, predictedDemand := 25,
       reorderNeeded := true, priority := "high" } : BatchForecast).priority = "high" := by
  have hb : batchItem ⟨"A", "N", 10, 20⟩ [⟨0, 5⟩] 5 =
      some ⟨"A", "N", 10, 20, 25, true, "high"⟩ := by
    norm_num [batchItem, combinedForecast, seasonalNaive, movingAverage, ssMean, jsSliceLast,
      jsMax, linearTrend, exponentialSmoothing, jsRound, prepareSalesData, groupSales, bump,
      lookupDate, listMinN, listMaxN, List.replicate, List.range_succ]
  have h := (batch_priority_sort_spec [(⟨"A", "N", 10, 20⟩, [⟨0, 5⟩])] 5).1
    ⟨"A", "N", 10, 20⟩ [⟨0, 5⟩] ⟨"A", "N", 10, 20, 25, true, "high"⟩ hb
  rw [h]
  norm_num
